import Mathlib

/-!
# Verification of the momentum_crypto_algo rebalancing engine

A shallow embedding of the rebalancing decision-and-execution engine of the
`momentum_crypto_algo` repository, together with theorems settling the
frozen claims about its specification.

The repository's files ship only the documentation of the core
(`README.md`, `Makefile`, CI configuration, `.env.example`, and a notebook
that imports `agent.selector` / `agent.utils`); the Python modules
`agent/selector.py`, `agent/utils.py`, `agent/runner.py` themselves are not
among the staged files.  Every definition of a core component below is
therefore modelled from the specification's own wording (its doc comment
says so and names the missing module); the configuration template
`.env.example` is transcribed from the staged file directly.

All monetary and weight quantities are exact rationals (`ℚ`), as the
specification itself mandates ("fixed-point/exact-rational values, never
binary floating point").
-/

namespace MomentumAlgo

/-- One entry of a `MarketSnapshot`: symbol, quote currency, current price,
24h traded USD volume, and the fixed-lookback historical price (spec §3). -/
structure AssetQuote where
  symbol : String
  quoteCurrency : String
  price : ℚ
  volume24hUsd : ℚ
  priceLookback : ℚ
deriving DecidableEq

/-- Modelled from the spec: `agent/selector.py` is not among the staged
files.  Spec §4.1 step 2: `momentum = (price − price_lookback) / price_lookback`. -/
def momentum (q : AssetQuote) : ℚ :=
  (q.price - q.priceLookback) / q.priceLookback

/-- Modelled from the spec: `agent/selector.py` is not among the staged
files.  Spec §4.1 step 2 / README: `score = volume_24h_usd × momentum`. -/
def score (q : AssetQuote) : ℚ :=
  q.volume24hUsd * momentum q

/-- The ranking order of spec §4.1 step 3 on `(symbol, score)` pairs:
descending by score, ties broken by ascending symbol name. -/
def rankOrder (a b : String × ℚ) : Prop :=
  b.2 < a.2 ∨ (a.2 = b.2 ∧ a.1 ≤ b.1)

instance : DecidableRel rankOrder := fun a b =>
  inferInstanceAs (Decidable (b.2 < a.2 ∨ (a.2 = b.2 ∧ a.1 ≤ b.1)))

instance : IsTotal (String × ℚ) rankOrder := by
  constructor
  intro a b
  rcases lt_trichotomy a.2 b.2 with h | h | h
  · exact Or.inr (Or.inl h)
  · rcases le_total a.1 b.1 with hs | hs
    · exact Or.inl (Or.inr ⟨h, hs⟩)
    · exact Or.inr (Or.inr ⟨h.symm, hs⟩)
  · exact Or.inl (Or.inl h)

instance : IsTrans (String × ℚ) rankOrder := by
  constructor
  intro a b c hab hbc
  rcases hab with h1 | ⟨e1, s1⟩
  · rcases hbc with h2 | ⟨e2, s2⟩
    · exact Or.inl (h2.trans h1)
    · exact Or.inl (e2 ▸ h1)
  · rcases hbc with h2 | ⟨e2, s2⟩
    · exact Or.inl (e1 ▸ h2)
    · exact Or.inr ⟨e1.trans e2, s1.trans s2⟩

/-- Modelled from the spec: `agent/selector.py` is not among the staged
files.  Spec §4.1 step 1: keep the assets whose 24h USD volume reaches the
liquidity floor. -/
def survivors (snapshot : List AssetQuote) (liquidityFloor : ℚ) : List AssetQuote :=
  snapshot.filter fun q => decide (liquidityFloor ≤ q.volume24hUsd)

/-- Modelled from the spec: `agent/selector.py` is not among the staged
files.  Spec §4.1 step 2: score every surviving asset. -/
def scoredList (snapshot : List AssetQuote) (liquidityFloor : ℚ) : List (String × ℚ) :=
  (survivors snapshot liquidityFloor).map fun q => (q.symbol, score q)

/-- Modelled from the spec: `agent/selector.py` is not among the staged
files.  Spec §4.1 step 3: sort descending by score, ties by ascending symbol. -/
def rankedList (snapshot : List AssetQuote) (liquidityFloor : ℚ) : List (String × ℚ) :=
  List.insertionSort rankOrder (scoredList snapshot liquidityFloor)

/-- Modelled from the spec: `agent/selector.py` is not among the staged
files.  Spec §4.1 step 4: take the first `top_n` entries and drop any with
a non-positive score. -/
def toppedList (snapshot : List AssetQuote) (topN : ℕ) (liquidityFloor : ℚ) :
    List (String × ℚ) :=
  ((rankedList snapshot liquidityFloor).take topN).filter fun p => decide (0 < p.2)

/-- The normalisation denominator of spec §4.1 step 6: the sum of the
scores of the surviving set. -/
def totalScore (snapshot : List AssetQuote) (topN : ℕ) (liquidityFloor : ℚ) : ℚ :=
  ((toppedList snapshot topN liquidityFloor).map Prod.snd).sum

/-- Modelled from the spec: `agent/selector.py` (`build_target_weights`) is
not among the staged files.  Spec §4.1: the Selector's
`select(snapshot, top_n, cash_buffer, liquidity_floor) → TargetWeightMap`,
steps 1–6: filter by the liquidity floor, score, sort, truncate to `top_n`,
drop non-positive scores, return the empty map if nothing survives, and
otherwise weight each survivor by `score_i / Σscore_j × (1 − cash_buffer)`. -/
def select (snapshot : List AssetQuote) (topN : ℕ) (cashBuffer liquidityFloor : ℚ) :
    List (String × ℚ) :=
  let topped := toppedList snapshot topN liquidityFloor
  if topped.isEmpty then []
  else
    let total := totalScore snapshot topN liquidityFloor
    topped.map fun p => (p.1, p.2 / total * (1 - cashBuffer))

/-- The scenario snapshot of spec §8: BTC with volume 1,000,000 and 3-day
momentum +0.05, ETH with volume 500,000 and momentum +0.02. -/
def scenarioSnapshot : List AssetQuote :=
  [⟨"BTC", "USD", 21/20, 1000000, 1⟩, ⟨"ETH", "USD", 51/50, 500000, 1⟩]

lemma sum_map_snd_div_mul (l : List (String × ℚ)) (t c : ℚ) :
    (l.map fun p => p.2 / t * c).sum = (l.map Prod.snd).sum / t * c := by
  induction l with
  | nil => simp
  | cons a l ih =>
    simp only [List.map_cons, List.sum_cons, ih]
    ring

lemma mem_toppedList_pos {s : List AssetQuote} {n : ℕ} {lf : ℚ} {p : String × ℚ}
    (h : p ∈ toppedList s n lf) : 0 < p.2 := by
  have := (List.mem_filter.mp h).2
  simpa using this

lemma mem_toppedList_source {s : List AssetQuote} {n : ℕ} {lf : ℚ} {p : String × ℚ}
    (h : p ∈ toppedList s n lf) :
    ∃ q, q ∈ s ∧ q.symbol = p.1 ∧ lf ≤ q.volume24hUsd ∧ score q = p.2 := by
  have h1 : p ∈ rankedList s lf :=
    List.mem_of_mem_take (List.mem_filter.mp h).1
  have h2 : p ∈ scoredList s lf :=
    ((List.perm_insertionSort rankOrder (scoredList s lf)).mem_iff).mp h1
  rcases List.mem_map.mp h2 with ⟨q, hq, hqp⟩
  have hq2 := List.mem_filter.mp hq
  refine ⟨q, hq2.1, ?_, by simpa using hq2.2, ?_⟩
  · rw [← hqp]
  · rw [← hqp]

lemma totalScore_pos {s : List AssetQuote} {n : ℕ} {lf : ℚ}
    (h : toppedList s n lf ≠ []) : 0 < totalScore s n lf := by
  apply List.sum_pos
  · intro x hx
    rcases List.mem_map.mp hx with ⟨p, hp, hpx⟩
    exact hpx ▸ mem_toppedList_pos hp
  · simpa using h

/-- C1.  The Selector keeps exactly the assets clearing the liquidity
floor, scores them by `volume × momentum`, keeps at most `top_n` strictly
positive scores, and weights each survivor by
`score / Σscore × (1 − cash_buffer)`; on the spec §8 scenario (BTC volume
1,000,000 momentum +0.05, ETH volume 500,000 momentum +0.02, `top_n = 2`,
`cash_buffer = 0.05`) it returns exactly BTC ↦ 19/24 and ETH ↦ 19/120,
which agree with the quoted decimals 0.7917 and 0.1583 to the displayed
four decimal places. -/
theorem selector_scenario_and_pipeline :
    select scenarioSnapshot 2 (1/20) 0 = [("BTC", 19/24), ("ETH", 19/120)] ∧
    |(19 : ℚ)/24 - 7917/10000| ≤ 1/20000 ∧
    |(19 : ℚ)/120 - 1583/10000| ≤ 1/20000 ∧
    (∀ (s : List AssetQuote) (lf : ℚ) (q : AssetQuote),
      q ∈ survivors s lf ↔ q ∈ s ∧ lf ≤ q.volume24hUsd) ∧
    (∀ (s : List AssetQuote) (n : ℕ) (cb lf : ℚ), (select s n cb lf).length ≤ n) ∧
    (∀ (s : List AssetQuote) (n : ℕ) (cb lf : ℚ) (p : String × ℚ),
      p ∈ select s n cb lf →
        ∃ q, q ∈ s ∧ q.symbol = p.1 ∧ lf ≤ q.volume24hUsd ∧ 0 < score q ∧
          p.2 = score q / totalScore s n lf * (1 - cb)) := by
  refine ⟨?_, ?_, ?_, ?_, ?_, ?_⟩
  · norm_num [select, toppedList, rankedList, scoredList, survivors, scenarioSnapshot, score,
      momentum, totalScore, rankOrder, List.insertionSort, List.orderedInsert, List.filter]
  · rw [abs_le]; constructor <;> norm_num
  · rw [abs_le]; constructor <;> norm_num
  · intro s lf q
    constructor
    · intro h
      have := List.mem_filter.mp h
      exact ⟨this.1, by simpa using this.2⟩
    · intro h
      exact List.mem_filter.mpr ⟨h.1, by simpa using h.2⟩
  · intro s n cb lf
    unfold select
    by_cases h : (toppedList s n lf).isEmpty = true
    · rw [if_pos h]
      simp
    · rw [if_neg h, List.length_map]
      calc (toppedList s n lf).length
          ≤ ((rankedList s lf).take n).length := List.length_filter_le _ _
        _ ≤ n := by simp [List.length_take]
  · intro s n cb lf p hp
    unfold select at hp
    by_cases h : (toppedList s n lf).isEmpty = true
    · rw [if_pos h] at hp
      simp at hp
    · rw [if_neg h] at hp
      rcases List.mem_map.mp hp with ⟨t, ht, htp⟩
      rcases mem_toppedList_source ht with ⟨q, hqs, hsym, hvol, hsc⟩
      have hpos : 0 < t.2 := mem_toppedList_pos ht
      refine ⟨q, hqs, ?_, hvol, by rw [hsc]; exact hpos, ?_⟩
      · rw [hsym, ← htp]
      · rw [← htp, hsc]

/-- C6.  Whenever the Selector returns a non-empty map its weights sum to
exactly `1 − cash_buffer`, hence to at most `(1 − cash_buffer) + ε` for
every `ε ≥ 0` (spec §8, Selector normalization). -/
theorem select_weight_sum_bounded (s : List AssetQuote) (n : ℕ) (cb lf ε : ℚ)
    (hne : select s n cb lf ≠ []) (hε : 0 ≤ ε) :
    ((select s n cb lf).map Prod.snd).sum = 1 - cb ∧
    ((select s n cb lf).map Prod.snd).sum ≤ (1 - cb) + ε := by
  have htne : ¬ (toppedList s n lf).isEmpty := by
    intro h
    apply hne
    unfold select
    simp [h]
  have htne' : toppedList s n lf ≠ [] := by
    simpa [List.isEmpty_iff] using htne
  have htot : 0 < totalScore s n lf := totalScore_pos htne'
  have hsum : ((select s n cb lf).map Prod.snd).sum = 1 - cb := by
    unfold select
    rw [if_neg htne, List.map_map]
    have hcomp :
        (Prod.snd ∘ fun p : String × ℚ => (p.1, p.2 / totalScore s n lf * (1 - cb))) =
          fun p : String × ℚ => p.2 / totalScore s n lf * (1 - cb) := rfl
    rw [hcomp, sum_map_snd_div_mul, ← totalScore, div_self htot.ne', one_mul]
  exact ⟨hsum, by rw [hsum]; linarith⟩

/-- Closed witness for the weight-sum bound: the spec §8 scenario with
`cash_buffer = 0.05` and `ε = 0`. -/
theorem select_weight_sum_bounded_witness :
    ((select scenarioSnapshot 2 (1/20) 0).map Prod.snd).sum = 1 - 1/20 ∧
    ((select scenarioSnapshot 2 (1/20) 0).map Prod.snd).sum ≤ (1 - 1/20) + 0 :=
  select_weight_sum_bounded scenarioSnapshot 2 (1/20) 0 0
    (by
      have hval : select scenarioSnapshot 2 (1/20) 0 = [("BTC", 19/24), ("ETH", 19/120)] := by
        norm_num [select, toppedList, rankedList, scoredList, survivors, scenarioSnapshot, score,
          momentum, totalScore, rankOrder, List.insertionSort, List.orderedInsert, List.filter]
      rw [hval]
      simp)
    le_rfl

/-- C7.  The Selector is a pure function: identical snapshots and
parameters give identical maps, and the ranking it sorts by is the total
order "descending score, ties broken by ascending symbol name", so the
result is uniquely determined with deterministic tie-breaking. -/
theorem select_deterministic_tiebreak :
    (∀ (s s' : List AssetQuote) (n : ℕ) (cb lf : ℚ),
      s = s' → select s n cb lf = select s' n cb lf) ∧
    (∀ (s : List AssetQuote) (lf : ℚ), List.Sorted rankOrder (rankedList s lf)) ∧
    (∀ (s : List AssetQuote) (lf : ℚ), List.Perm (rankedList s lf) (scoredList s lf)) :=
  ⟨fun _ _ _ _ _ h => by rw [h],
   fun s lf => List.sorted_insertionSort rankOrder (scoredList s lf),
   fun s lf => List.perm_insertionSort rankOrder (scoredList s lf)⟩

/-! ## DriftAnalyzer (spec §4.3) -/

/-- Weight of a symbol in a `symbol → weight` map, zero when absent
(spec §3: "weights for non-selected symbols are implicitly zero"). -/
def weightOf (m : List (String × ℚ)) (sym : String) : ℚ :=
  match m.find? fun p => p.1 == sym with
  | some p => p.2
  | none => 0

/-- The `DriftRecord{symbol, target_weight, current_weight, drift_usd}` with
`drift_usd = (target − current) × nav_usd` (spec §3). -/
structure DriftRecord where
  symbol : String
  targetWeight : ℚ
  currentWeight : ℚ
  driftUsd : ℚ
deriving DecidableEq

/-- The generation rule of spec §4.3: a symbol produces a record iff its
drift exceeds the tolerance, or it is a full entry (`target > 0`,
`current = 0`), or a full exit (`target = 0`, `current > 0`). -/
def NeedsRecord (tol t c : ℚ) : Prop :=
  tol < |t - c| ∨ (0 < t ∧ c = 0) ∨ (t = 0 ∧ 0 < c)

instance (tol t c : ℚ) : Decidable (NeedsRecord tol t c) :=
  inferInstanceAs (Decidable (_ ∨ _))

/-- The symbols the analyzer considers: every symbol of the target map or
of the current-weights map, each once. -/
def driftSymbols (target current : List (String × ℚ)) : List String :=
  (target.map Prod.fst ++ current.map Prod.fst).dedup

/-- The record built for one symbol (spec §3). -/
def mkDriftRecord (target current : List (String × ℚ)) (nav : ℚ) (sym : String) :
    DriftRecord :=
  ⟨sym, weightOf target sym, weightOf current sym,
    (weightOf target sym - weightOf current sym) * nav⟩

/-- The output order of spec §4.3: descending by `|drift_usd|`. -/
def driftOrder (a b : DriftRecord) : Prop := |b.driftUsd| ≤ |a.driftUsd|

instance : DecidableRel driftOrder := fun a b =>
  inferInstanceAs (Decidable (|b.driftUsd| ≤ |a.driftUsd|))

instance : IsTotal DriftRecord driftOrder := ⟨fun a b => le_total |b.driftUsd| |a.driftUsd|⟩

instance : IsTrans DriftRecord driftOrder := ⟨fun _ _ _ h1 h2 => le_trans h2 h1⟩

/-- Modelled from the spec: the DriftAnalyzer of `agent/runner.py` is not
among the staged files.  Spec §4.3:
`analyze(target_map, snapshot, tolerance) → ordered sequence of DriftRecord`,
generating a record iff `|target − current| > tolerance` or the symbol is a
full entry or full exit, ordered descending by `|drift_usd|`. -/
def analyze (target current : List (String × ℚ)) (nav tol : ℚ) : List DriftRecord :=
  List.insertionSort driftOrder
    (((driftSymbols target current).filter fun sym =>
        decide (NeedsRecord tol (weightOf target sym) (weightOf current sym))).map
      (mkDriftRecord target current nav))

/-- C2.  `analyze` emits a record for a symbol iff the drift exceeds the
tolerance or the symbol is a full entry or full exit (entries and exits
are never suppressed by the tolerance band), and the returned sequence is
ordered descending by `|drift_usd|`. -/
theorem analyze_membership_and_order :
    ∀ (target current : List (String × ℚ)) (nav tol : ℚ),
      List.Sorted driftOrder (analyze target current nav tol) ∧
      ∀ sym : String,
        (∃ r ∈ analyze target current nav tol, r.symbol = sym) ↔
          (sym ∈ driftSymbols target current ∧
            NeedsRecord tol (weightOf target sym) (weightOf current sym)) := by
  intro target current nav tol
  constructor
  · exact List.sorted_insertionSort driftOrder _
  · intro sym
    have hperm := List.perm_insertionSort driftOrder
      (((driftSymbols target current).filter fun sym =>
          decide (NeedsRecord tol (weightOf target sym) (weightOf current sym))).map
        (mkDriftRecord target current nav))
    constructor
    · rintro ⟨r, hr, hrs⟩
      have hr2 := hperm.mem_iff.mp hr
      rcases List.mem_map.mp hr2 with ⟨s', hs', hrec⟩
      have hs'' := List.mem_filter.mp hs'
      have hsym : s' = sym := by
        rw [← hrs, ← hrec]
        rfl
      subst hsym
      exact ⟨hs''.1, by simpa using hs''.2⟩
    · rintro ⟨hmem, hneed⟩
      refine ⟨mkDriftRecord target current nav sym, ?_, rfl⟩
      apply hperm.mem_iff.mpr
      exact List.mem_map_of_mem _ (List.mem_filter.mpr ⟨hmem, by simpa using hneed⟩)

/-! ## OrderPlanner (spec §4.4) -/

inductive Side where
  | BUY
  | SELL
deriving DecidableEq

def sideName : Side → String
  | .BUY => "BUY"
  | .SELL => "SELL"

/-- An `OrderIntent{symbol, side, notional_usd, quantity, idempotency_key}`
(spec §3). -/
structure OrderIntent where
  symbol : String
  side : Side
  notionalUsd : ℚ
  quantity : ℚ
  idempotencyKey : String
deriving DecidableEq

/-- Modelled from the spec: the OrderPlanner of `agent/runner.py` /
`agent/utils.py` is not among the staged files.  Spec §4.4: quantities are
rounded **toward zero** to the exchange's lot-size step. -/
def roundTowardZero (step x : ℚ) : ℚ :=
  if 0 ≤ x then step * ⌊x / step⌋ else step * ⌈x / step⌉

/-- Modelled from the spec: spec §4.4, `quantity = notional / price`
rounded toward zero to the lot-size step. -/
def plannedQuantity (notionalUsd price lotStep : ℚ) : ℚ :=
  roundTowardZero lotStep (notionalUsd / price)

/-- C3.  For a non-negative notional, a positive price and a positive
lot-size step, the planned quantity never exceeds `notional / price`
(rounding is toward zero, never up), so `quantity × price ≤ notional`:
rounding never overspends. -/
theorem plannedQuantity_never_overspends (notionalUsd price lotStep : ℚ)
    (hn : 0 ≤ notionalUsd) (hp : 0 < price) (hs : 0 < lotStep) :
    plannedQuantity notionalUsd price lotStep * price ≤ notionalUsd ∧
    plannedQuantity notionalUsd price lotStep ≤ notionalUsd / price := by
  have hx : 0 ≤ notionalUsd / price := div_nonneg hn hp.le
  have hq : plannedQuantity notionalUsd price lotStep ≤ notionalUsd / price := by
    unfold plannedQuantity roundTowardZero
    rw [if_pos hx]
    have hfl : (⌊notionalUsd / price / lotStep⌋ : ℚ) ≤ notionalUsd / price / lotStep :=
      Int.floor_le _
    calc lotStep * (⌊notionalUsd / price / lotStep⌋ : ℚ)
        ≤ lotStep * (notionalUsd / price / lotStep) :=
          mul_le_mul_of_nonneg_left hfl hs.le
      _ = notionalUsd / price := by
          field_simp
          ring
  refine ⟨?_, hq⟩
  calc plannedQuantity notionalUsd price lotStep * price
      ≤ notionalUsd / price * price := mul_le_mul_of_nonneg_right hq hp.le
    _ = notionalUsd := div_mul_cancel₀ _ hp.ne'

/-- Closed witness for the rounding bound: notional 100 USD, price 3 USD,
lot step 1/100. -/
theorem plannedQuantity_never_overspends_witness :
    plannedQuantity 100 3 (1/100) * 3 ≤ 100 ∧ plannedQuantity 100 3 (1/100) ≤ 100 / 3 :=
  plannedQuantity_never_overspends 100 3 (1/100) (by norm_num) (by norm_num) (by norm_num)

/-- Modelled from the spec: spec §4.4, applied per drift record: side is
BUY iff `target > current`; `notional = min(|drift_usd|, available
constraint)`; records whose notional falls below `min_notional` are
dropped; quantity is the rounded `notional / price`; the idempotency key
is cycle-scoped (`cycle_timestamp + symbol + side`, spec §4.5). -/
def mkIntent (prices lotStep : String → ℚ) (minNotional available : ℚ)
    (cycleTimestamp : String) (r : DriftRecord) : Option OrderIntent :=
  let side := if r.currentWeight < r.targetWeight then Side.BUY else Side.SELL
  let notional := min |r.driftUsd| available
  if notional < minNotional then none
  else some
    ⟨r.symbol, side, notional,
      plannedQuantity notional (prices r.symbol) (lotStep r.symbol),
      cycleTimestamp ++ r.symbol ++ sideName side⟩

/-- The per-record intent stream, in the drift records' order. -/
def plannedIntents (prices lotStep : String → ℚ) (minNotional available : ℚ)
    (cycleTimestamp : String) (records : List DriftRecord) : List OrderIntent :=
  records.filterMap (mkIntent prices lotStep minNotional available cycleTimestamp)

/-- Modelled from the spec: the OrderPlanner's `plan` of `agent/runner.py`
is not among the staged files.  Spec §4.4 sequencing invariant: all SELL
intents are scheduled before all BUY intents, each side keeping the drift
records' order. -/
def plan (prices lotStep : String → ℚ) (minNotional available : ℚ)
    (cycleTimestamp : String) (records : List DriftRecord) : List OrderIntent :=
  let intents := plannedIntents prices lotStep minNotional available cycleTimestamp records
  (intents.filter fun i => decide (i.side = Side.SELL)) ++
    (intents.filter fun i => decide (i.side = Side.BUY))

/-- C4.  Every plan splits as a SELL block followed by a BUY block: each
block is a sublist of the per-record intent stream (so the stream's
descending-`|drift_usd|` order is preserved within each side), and every
intent of the stream lands in one of the two blocks. -/
theorem plan_sells_before_buys :
    ∀ (prices lotStep : String → ℚ) (minNotional available : ℚ)
      (cycleTimestamp : String) (records : List DriftRecord),
      ∃ sells buys : List OrderIntent,
        plan prices lotStep minNotional available cycleTimestamp records = sells ++ buys ∧
        (∀ i ∈ sells, i.side = Side.SELL) ∧
        (∀ i ∈ buys, i.side = Side.BUY) ∧
        sells.Sublist (plannedIntents prices lotStep minNotional available cycleTimestamp
          records) ∧
        buys.Sublist (plannedIntents prices lotStep minNotional available cycleTimestamp
          records) ∧
        ∀ i ∈ plannedIntents prices lotStep minNotional available cycleTimestamp records,
          i ∈ sells ∨ i ∈ buys := by
  intro prices lotStep minNotional available cycleTimestamp records
  refine ⟨_, _, rfl, ?_, ?_, List.filter_sublist _, List.filter_sublist _, ?_⟩
  · intro i hi
    have := (List.mem_filter.mp hi).2
    simpa using this
  · intro i hi
    have := (List.mem_filter.mp hi).2
    simpa using this
  · intro i hi
    cases hside : i.side with
    | SELL =>
      exact Or.inl (List.mem_filter.mpr ⟨hi, by simp [hside]⟩)
    | BUY =>
      exact Or.inr (List.mem_filter.mpr ⟨hi, by simp [hside]⟩)

/-! ## Execution Coordinator (spec §4.5) -/

inductive Status where
  | FILLED
  | REJECTED
  | FAILED
  | SKIPPED
deriving DecidableEq

/-- The classified reply of the external Trading Client for one submission
attempt (spec §6: "each fails with a classified error (transient vs
permanent) the core can branch on"). -/
inductive SubmitOutcome where
  | filled (quantity price : ℚ)
  | transient
  | permanent

/-- An `ExecutionResult` (spec §3), extended with the observable behaviour the
spec constrains: how many submissions were made and which backoff delays
were slept between them. -/
structure ExecutionResult where
  intent : OrderIntent
  status : Status
  filledQuantity : ℚ
  filledPrice : ℚ
  attempts : ℕ
  backoffsMs : List ℚ
deriving DecidableEq

/-- Modelled from the spec: the retry bound of `agent/runner.py` is not
among the staged files; spec §4.5 says only "a fixed bound". -/
def maxRetries : ℕ := 3

/-- Modelled from the spec: the base backoff delay is not among the staged
files; spec §4.5 says only "exponential backoff". -/
def baseBackoffMs : ℚ := 500

/-- The exponential backoff delays slept before the first `n` retries. -/
def backoffSchedule (n : ℕ) : List ℚ :=
  (List.range n).map fun j => baseBackoffMs * 2 ^ j

/-- Modelled from the spec: the Execution Coordinator's retry loop of
`agent/runner.py` is not among the staged files.  Spec §4.5: a transient
failure is retried while fuel remains (sleeping the exponential backoff),
exhausting retries marks the intent FAILED; a permanent failure is marked
REJECTED immediately, no retry; a fill is recorded FILLED. -/
def submitGo (client : OrderIntent → ℕ → SubmitOutcome) (intent : OrderIntent) :
    ℕ → ℕ → ExecutionResult
  | 0, attempt =>
    match client intent attempt with
    | .filled q p => ⟨intent, .FILLED, q, p, attempt + 1, backoffSchedule attempt⟩
    | .permanent => ⟨intent, .REJECTED, 0, 0, attempt + 1, backoffSchedule attempt⟩
    | .transient => ⟨intent, .FAILED, 0, 0, attempt + 1, backoffSchedule attempt⟩
  | fuel + 1, attempt =>
    match client intent attempt with
    | .filled q p => ⟨intent, .FILLED, q, p, attempt + 1, backoffSchedule attempt⟩
    | .permanent => ⟨intent, .REJECTED, 0, 0, attempt + 1, backoffSchedule attempt⟩
    | .transient => submitGo client intent fuel (attempt + 1)

/-- One intent's live submission: first attempt with `maxRetries` retries
in reserve. -/
def submitWithRetry (client : OrderIntent → ℕ → SubmitOutcome) (intent : OrderIntent) :
    ExecutionResult :=
  submitGo client intent maxRetries 0

/-- The dry-run record of spec §4.5: status SKIPPED, a synthetic result
reflecting the intended trade, no submission. -/
def skippedResult (intent : OrderIntent) : ExecutionResult :=
  ⟨intent, .SKIPPED, intent.quantity, 0, 0, []⟩

/-- Modelled from the spec: the Execution Coordinator's `execute` of
`agent/runner.py` is not among the staged files.  Spec §4.5:
`execute(order_intents, trading_client, dry_run)` consumes intents
strictly in planner order, producing one ExecutionResult per intent; the
second component counts live submission attempts (zero in dry-run mode,
where no network call occurs). -/
def execute (dryRun : Bool) (client : OrderIntent → ℕ → SubmitOutcome) :
    List OrderIntent → List ExecutionResult × ℕ
  | [] => ([], 0)
  | i :: rest =>
    let r := if dryRun then skippedResult i else submitWithRetry client i
    let rec_ := execute dryRun client rest
    (r :: rec_.1, if dryRun then rec_.2 else rec_.2 + r.attempts)

lemma execute_fst (dryRun : Bool) (client : OrderIntent → ℕ → SubmitOutcome)
    (intents : List OrderIntent) :
    (execute dryRun client intents).1 =
      intents.map fun i => if dryRun then skippedResult i else submitWithRetry client i := by
  induction intents with
  | nil => rfl
  | cons i rest ih => simp [execute, ih]

lemma submitGo_all_transient (client : OrderIntent → ℕ → SubmitOutcome)
    (intent : OrderIntent) (h : ∀ a, client intent a = .transient) :
    ∀ fuel attempt, submitGo client intent fuel attempt =
      ⟨intent, .FAILED, 0, 0, attempt + fuel + 1, backoffSchedule (attempt + fuel)⟩ := by
  intro fuel
  induction fuel with
  | zero =>
    intro attempt
    simp [submitGo, h attempt]
  | succ f ih =>
    intro attempt
    have := ih (attempt + 1)
    simp only [submitGo, h attempt]
    rw [this]
    have e1 : attempt + 1 + f = attempt + (f + 1) := by omega
    rw [e1]

/-- C5.  Live execution produces exactly one ExecutionResult per intent,
in planner order (the k-th result is the k-th intent's own submission,
independent of every other intent, so one failure never aborts the rest
and no per-intent error escapes); an always-transient intent is retried
`maxRetries` times with the exponential backoff schedule and then marked
FAILED; a permanently failing intent is marked REJECTED on the first
attempt with no retry and no backoff. -/
theorem execute_order_retry_containment :
    ∀ (client : OrderIntent → ℕ → SubmitOutcome) (intents : List OrderIntent),
      (execute false client intents).1.length = intents.length ∧
      (∀ k : ℕ, (execute false client intents).1[k]? =
        (intents[k]?).map (submitWithRetry client)) ∧
      (∀ intent : OrderIntent, (∀ a, client intent a = .transient) →
        submitWithRetry client intent =
          ⟨intent, .FAILED, 0, 0, maxRetries + 1, backoffSchedule maxRetries⟩) ∧
      (∀ intent : OrderIntent, client intent 0 = .permanent →
        submitWithRetry client intent = ⟨intent, .REJECTED, 0, 0, 1, []⟩) := by
  intro client intents
  refine ⟨?_, ?_, ?_, ?_⟩
  · rw [execute_fst]
    simp
  · intro k
    rw [execute_fst]
    simp
  · intro intent h
    have := submitGo_all_transient client intent h maxRetries 0
    simpa [submitWithRetry] using this
  · intro intent h
    have hsched : backoffSchedule 0 = [] := by simp [backoffSchedule]
    simp [submitWithRetry, maxRetries, submitGo, h, hsched]

/-! ## PortfolioState Builder (spec §4.2) -/

/-- The error of spec §7: a non-zero balance with no matching live price. -/
inductive BuildError where
  | priceMissing (symbol : String)
deriving DecidableEq

/-- The live price of a symbol, when the price map holds one. -/
def lookupPrice (prices : List (String × ℚ)) (sym : String) : Option ℚ :=
  (prices.find? fun p => p.1 == sym).map Prod.snd

/-- The price used to value a position, zero when missing (only ever used
after `build` has checked no non-zero position is missing a price). -/
def priceOrZero (prices : List (String × ℚ)) (sym : String) : ℚ :=
  (lookupPrice prices sym).getD 0

/-- The `PortfolioSnapshot{nav_usd, cash_usd, positions, current_weights}`
(spec §3). -/
structure PortfolioSnapshot where
  navUsd : ℚ
  cashUsd : ℚ
  positions : List (String × ℚ)
  currentWeights : List (String × ℚ)
deriving DecidableEq

/-- Modelled from the spec: the PortfolioState Builder
(`fetch_nav_and_positions` of `agent/utils.py`) is not among the staged
files.  Spec §4.2: `build(balances, live_prices) → PortfolioSnapshot` is a
pure aggregation with `NAV = cash_usd + Σ(quantity × price)`, failing with
`PriceMissingError` if a non-zero balance has no matching live price. -/
def build (cashUsd : ℚ) (balances prices : List (String × ℚ)) :
    Except BuildError PortfolioSnapshot :=
  match balances.find? fun b => !(b.2 == 0) && (lookupPrice prices b.1).isNone with
  | some b => .error (.priceMissing b.1)
  | none =>
    let nav := cashUsd + (balances.map fun b => b.2 * priceOrZero prices b.1).sum
    .ok ⟨nav, cashUsd, balances, balances.map fun b => (b.1, b.2 * priceOrZero prices b.1 / nav)⟩

/-- C8.  Every snapshot `build` produces satisfies
`nav_usd = cash_usd + Σ(quantity_i × price_i)` exactly (exact rationals,
so "within the defined epsilon" holds with ε = 0). -/
theorem build_nav_consistency (cashUsd : ℚ) (balances prices : List (String × ℚ))
    (snap : PortfolioSnapshot) (h : build cashUsd balances prices = .ok snap) :
    snap.navUsd = snap.cashUsd + (snap.positions.map fun b => b.2 * priceOrZero prices b.1).sum := by
  unfold build at h
  cases hf : balances.find? fun b => !(b.2 == 0) && (lookupPrice prices b.1).isNone with
  | some b =>
    rw [hf] at h
    cases h
  | none =>
    rw [hf] at h
    cases h
    rfl

/-- Closed witness for NAV consistency: cash 100, one 2-BTC position
priced at 10. -/
theorem build_nav_consistency_witness :
    (⟨120, 100, [("BTC", 2)], [("BTC", 1/6)]⟩ : PortfolioSnapshot).navUsd =
      (⟨120, 100, [("BTC", 2)], [("BTC", 1/6)]⟩ : PortfolioSnapshot).cashUsd +
        (((⟨120, 100, [("BTC", 2)], [("BTC", 1/6)]⟩ : PortfolioSnapshot).positions.map
          fun b => b.2 * priceOrZero [("BTC", 10)] b.1).sum) :=
  build_nav_consistency 100 [("BTC", 2)] [("BTC", 10)] ⟨120, 100, [("BTC", 2)], [("BTC", 1/6)]⟩
    (by norm_num [build, lookupPrice, priceOrZero, List.find?])

/-- C9.  `build` fails (with `PriceMissingError`) exactly when some
balance with non-zero quantity has no matching live price — producing no
snapshot in that case — and succeeds otherwise. -/
theorem build_price_missing_iff :
    ∀ (cashUsd : ℚ) (balances prices : List (String × ℚ)),
      ((∃ e, build cashUsd balances prices = .error e) ↔
        ∃ b ∈ balances, b.2 ≠ 0 ∧ lookupPrice prices b.1 = none) ∧
      ((∃ s, build cashUsd balances prices = .ok s) ↔
        ∀ b ∈ balances, b.2 ≠ 0 → (lookupPrice prices b.1).isSome) := by
  intro cashUsd balances prices
  have hiff : (∃ b ∈ balances, b.2 ≠ 0 ∧ lookupPrice prices b.1 = none) ↔
      (balances.find? fun b => !(b.2 == 0) && (lookupPrice prices b.1).isNone).isSome := by
    rw [List.find?_isSome]
    constructor
    · rintro ⟨b, hb, hnz, hno⟩
      exact ⟨b, hb, by simp [hnz, hno]⟩
    · rintro ⟨b, hb, hp⟩
      simp only [Bool.and_eq_true, bne_iff_ne, Option.isNone_iff_eq_none] at hp
      refine ⟨b, hb, ?_, hp.2⟩
      simpa using hp.1
  constructor
  · rw [hiff]
    unfold build
    cases hf : balances.find? fun b => !(b.2 == 0) && (lookupPrice prices b.1).isNone with
    | some b => simp [hf]
    | none => simp [hf]
  · rw [show (∀ b ∈ balances, b.2 ≠ 0 → (lookupPrice prices b.1).isSome) ↔
        ¬ (∃ b ∈ balances, b.2 ≠ 0 ∧ lookupPrice prices b.1 = none) by
      constructor
      · rintro hall ⟨b, hb, hnz, hno⟩
        have := hall b hb hnz
        rw [hno] at this
        cases this
      · intro hnone b hb hnz
        rcases ho : lookupPrice prices b.1 with _ | v
        · exact absurd ⟨b, hb, hnz, ho⟩ hnone
        · rfl]
    rw [hiff]
    unfold build
    cases hf : balances.find? fun b => !(b.2 == 0) && (lookupPrice prices b.1).isNone with
    | some b => simp [hf]
    | none => simp [hf]

/-! ## Configuration template (`.env.example`) and dry-run safety -/

/-- The key–value pairs of the staged configuration template
`archive_coinbase_rebalance_agent/.env.example` (the inline comment after
the `DRY_RUN` value is stripped, as python-dotenv does for unquoted
values). -/
def envExampleTemplate : List (String × String) :=
  [("CB_API_KEY", "your_api_key_here"),
   ("CB_API_SECRET", "your_api_secret_here"),
   ("CB_API_PASSPHRASE", "your_passphrase_here"),
   ("CB_PORTFOLIO_ID", "your_portfolio_id_here"),
   ("CB_API_URL", "https://api.coinbase.com"),
   ("LOG_LEVEL", "INFO"),
   ("LOG_FILE", "logs/rebalance_agent.log"),
   ("REBALANCE_INTERVAL_MINUTES", "60"),
   ("DRY_RUN", "true")]

/-- Look a key up in the shipped template. -/
def lookupEnvExample (key : String) : Option String :=
  (envExampleTemplate.find? fun p => p.1 == key).map Prod.snd

/-- Boolean flag parsing for environment values. -/
def parseBoolFlag : String → Option Bool
  | "true" => some true
  | "false" => some false
  | _ => none

/-- The dry-run mode a deployment configured from the template runs with. -/
def templateDryRun : Bool :=
  ((lookupEnvExample "DRY_RUN").bind parseBoolFlag).getD false

/-- C10.  The shipped template sets `DRY_RUN=true`, so a deployment
configured from it executes every cycle in dry-run mode: every intent is
recorded with status SKIPPED and the Execution Coordinator makes zero
live submissions. -/
theorem template_dry_run_safety :
    lookupEnvExample "DRY_RUN" = some "true" ∧
    templateDryRun = true ∧
    (∀ (client : OrderIntent → ℕ → SubmitOutcome) (intents : List OrderIntent),
      ∀ r ∈ (execute templateDryRun client intents).1, r.status = Status.SKIPPED) ∧
    (∀ (client : OrderIntent → ℕ → SubmitOutcome) (intents : List OrderIntent),
      (execute templateDryRun client intents).2 = 0) := by
  have hdr : templateDryRun = true := rfl
  refine ⟨rfl, hdr, ?_, ?_⟩
  · intro client intents r hr
    rw [hdr, execute_fst] at hr
    rcases List.mem_map.mp hr with ⟨i, _, hi⟩
    rw [← hi]
    rfl
  · intro client intents
    rw [hdr]
    induction intents with
    | nil => rfl
    | cons i rest ih => simpa [execute] using ih

end MomentumAlgo
